import Mathlib

/-!
Formal model of the SlotSwapper backend (Express + Mongoose).

The data model follows the two Mongoose schemas (`Event`, `SwapRequest`)
and the state-changing operations follow the route handlers in
`backend/src/routes/events.js` (create / update / delete event) and the
swap-request router (incoming / outgoing lists, create swap request,
respond to swap request).

Modelling conventions, each justified against the source:
* MongoDB ObjectIds are modelled as natural numbers drawn from a single
  fresh-id counter `DB.nextId`; Mongo guarantees ids are never reused.
* Request bodies: a JS field that is absent or falsy (`undefined`, `""`)
  is modelled as `none`; the route handlers treat those two identically
  (`if (!title)`, `status || 'BUSY'`, `if (status)`).
* A status string outside the schema enum would be rejected by Mongoose
  validation before any state change, so status inputs are modelled as
  `Option EventStatus`.
* Timestamps: `timestamps: true` on `swapRequestSchema` stores the
  creation instant in the field named `createdAt` (and an `updatedAt`
  field, unused here).  Dates are modelled as integers (epoch millis).
* A handler that returns an error response before performing any write
  is modelled as `Except.error`; `applyOp` keeps the previous state in
  that case, exactly as the route does.
-/

namespace SlotSwapper

/-! ### Small executable list library -/

/-- First element of the list satisfying `p` (models `findOne` /
`findById`, which return a single matching document). -/
def findP {α : Type} (p : α → Prop) [DecidablePred p] : List α → Option α
  | [] => none
  | x :: xs => if p x then some x else findP p xs

/-- Number of elements satisfying `p`. -/
def countPP {α : Type} (p : α → Prop) [DecidablePred p] : List α → Nat
  | [] => 0
  | x :: xs => (if p x then 1 else 0) + countPP p xs

/-- Remove every element satisfying `p` (models `deleteOne` on a field
that is unique in the collection). -/
def removeP {α : Type} (p : α → Prop) [DecidablePred p] : List α → List α
  | [] => []
  | x :: xs => if p x then removeP p xs else x :: removeP p xs

/-! ### Data model (from `models/Event.js` and `models/SwapRequest.js`) -/

/-- `eventSchema.status`: `enum: ['BUSY', 'SWAPPABLE', 'SWAP_PENDING']`. -/
inductive EventStatus : Type
  | BUSY
  | SWAPPABLE
  | SWAP_PENDING
deriving DecidableEq, Repr

/-- `swapRequestSchema.status`: `enum: ['PENDING', 'ACCEPTED', 'REJECTED']`. -/
inductive ReqStatus : Type
  | PENDING
  | ACCEPTED
  | REJECTED
deriving DecidableEq, Repr

/-- An event document (`eventSchema`).  The `timestamps` fields of the
event schema are not referenced by any handler and are omitted. -/
structure Event where
  id : Nat
  user_id : Nat
  title : String
  start_time : Int
  end_time : Int
  status : EventStatus
deriving DecidableEq, Repr

/-- A swap-request document (`swapRequestSchema`).  `timestamps: true`
stores the creation instant under the key `createdAt`. -/
structure SwapRequest where
  id : Nat
  requester_id : Nat
  requester_event_id : Nat
  recipient_id : Nat
  recipient_event_id : Nat
  status : ReqStatus
  createdAt : Int
deriving DecidableEq, Repr

/-- The persistent state: both collections plus the fresh-id counter. -/
structure DB where
  events : List Event
  requests : List SwapRequest
  nextId : Nat
deriving DecidableEq, Repr

def initDB : DB := ⟨[], [], 0⟩

/-- Typed counterpart of the HTTP error responses the handlers produce
(400 / 403 / 404); the message strings are the ones in the source. -/
inductive ApiError : Type
  | badRequest (msg : String)
  | forbidden (msg : String)
  | notFound (msg : String)
deriving DecidableEq, Repr

/-- `Event.findById(i)`. -/
def findEvent (db : DB) (i : Nat) : Option Event :=
  findP (fun e => e.id = i) db.events

/-- `Event.findOne({ _id: eid, user_id: uid })`. -/
def findEventOwned (db : DB) (uid eid : Nat) : Option Event :=
  findP (fun e => e.id = eid ∧ e.user_id = uid) db.events

/-- `SwapRequest.findById(i)`. -/
def findRequest (db : DB) (i : Nat) : Option SwapRequest :=
  findP (fun r => r.id = i) db.requests

/-- Saving a (possibly modified) event document: replaces the stored
document with the same `_id`. -/
def putEventDoc (e : Event) (l : List Event) : List Event :=
  l.map fun x => if x.id = e.id then e else x

/-- `Event.findByIdAndUpdate(i, { status: s })`: a no-op when no
document has id `i`. -/
def setStatusById (i : Nat) (s : EventStatus) (l : List Event) : List Event :=
  l.map fun e => if e.id = i then { e with status := s } else e

/-! ### Event routes (`backend/src/routes/events.js`) -/

/-- `POST /api/events`.  Mirrors the handler: missing title → 400,
`endDate <= startDate` → 400, otherwise store a new event with
`status: status || 'BUSY'`. -/
def createEvent (db : DB) (uid : Nat) (title : String) (startT endT : Int)
    (st : Option EventStatus) : Except ApiError DB :=
  if title = "" then
    .error (.badRequest "Title, start time, and end time are required")
  else if endT ≤ startT then
    .error (.badRequest "End time must be after start time")
  else
    .ok { db with
      events := db.events ++
        [{ id := db.nextId, user_id := uid, title := title,
           start_time := startT, end_time := endT,
           status := st.getD .BUSY }],
      nextId := db.nextId + 1 }

/-- `PUT /api/events/:id`.  Mirrors the handler: owner-scoped lookup →
404, `SWAP_PENDING` → 400, otherwise each supplied (truthy) field is
written, including `status`.  No end-after-start re-validation is
performed on update, as in the source. -/
def updateEvent (db : DB) (uid eid : Nat) (title : Option String)
    (startT endT : Option Int) (st : Option EventStatus) : Except ApiError DB :=
  match findEventOwned db uid eid with
  | none => .error (.notFound "Event not found")
  | some e =>
    if e.status = .SWAP_PENDING then
      .error (.badRequest "Cannot modify events with pending swaps")
    else
      .ok { db with
        events := putEventDoc
          { e with
            title := title.getD e.title,
            start_time := startT.getD e.start_time,
            end_time := endT.getD e.end_time,
            status := st.getD e.status } db.events }

/-- `DELETE /api/events/:id`.  Mirrors the handler: owner-scoped lookup
→ 404, then `event.deleteOne()` with no status guard of any kind. -/
def deleteEvent (db : DB) (uid eid : Nat) : Except ApiError DB :=
  match findEventOwned db uid eid with
  | none => .error (.notFound "Event not found")
  | some _ => .ok { db with events := removeP (fun x => x.id = eid) db.events }

/-! ### Swap-request routes (swap-request router) -/

/-- `POST /api/swap-requests` (create swap request).  Mirrors the
handler: load both events → 404, requester must own the requester event
→ 403, both must be `SWAPPABLE` → 400, then save a `PENDING` request and
set both events to `SWAP_PENDING`. -/
def propose (db : DB) (uid mySlotId theirSlotId : Nat) (now : Int) :
    Except ApiError DB :=
  match findEvent db mySlotId, findEvent db theirSlotId with
  | some requesterEvent, some recipientEvent =>
    if requesterEvent.user_id ≠ uid then
      .error (.forbidden "You do not own the requester event")
    else if requesterEvent.status ≠ .SWAPPABLE ∨ recipientEvent.status ≠ .SWAPPABLE then
      .error (.badRequest "One or both events are no longer swappable")
    else
      .ok { db with
        requests := db.requests ++
          [{ id := db.nextId, requester_id := uid,
             requester_event_id := mySlotId,
             recipient_id := recipientEvent.user_id,
             recipient_event_id := theirSlotId,
             status := .PENDING, createdAt := now }],
        events := setStatusById mySlotId .SWAP_PENDING
          (setStatusById theirSlotId .SWAP_PENDING db.events),
        nextId := db.nextId + 1 }
  | _, _ => .error (.notFound "One or both events not found")

/-- One persistent write performed by the respond handler, in source
order: `swapRequest.save()`, `requesterEvent.save()` /
`recipientEvent.save()` (accept), `Event.findByIdAndUpdate` (reject). -/
inductive WriteStep : Type
  | putRequest (r : SwapRequest)
  | putEvent (e : Event)
  | setEventStatus (i : Nat) (s : EventStatus)
deriving DecidableEq, Repr

def applyWrite (db : DB) : WriteStep → DB
  | .putRequest r =>
    { db with requests := db.requests.map fun q => if q.id = r.id then r else q }
  | .putEvent e => { db with events := putEventDoc e db.events }
  | .setEventStatus i s => { db with events := setStatusById i s db.events }

def applyWrites (db : DB) (ws : List WriteStep) : DB :=
  ws.foldl applyWrite db

/-- `PUT /api/swap-requests/:id/respond` (identical logic in the
`swapResponseHandler` variant): the validation phase followed by the
ordered list of writes the handler then performs.  Mirrors the handler:
load request with populated events → 404, caller must be the recipient
→ 403, request must still be `PENDING` → 400, both populated events must
exist → 404; then the request status is saved first, and afterwards the
two event documents are written (owners swapped and both `BUSY` on
accept; both statuses `SWAPPABLE` on reject). -/
def respondPlan (db : DB) (uid reqId : Nat) (accept : Bool) :
    Except ApiError (List WriteStep) :=
  match findRequest db reqId with
  | none => .error (.notFound "Swap request not found")
  | some swapRequest =>
    if swapRequest.recipient_id ≠ uid then
      .error (.forbidden "You are not authorized to respond to this request")
    else if swapRequest.status ≠ .PENDING then
      .error (.badRequest "Swap request is no longer pending")
    else
      match findEvent db swapRequest.requester_event_id,
            findEvent db swapRequest.recipient_event_id with
      | some requesterEvent, some recipientEvent =>
        .ok (WriteStep.putRequest
              { swapRequest with
                status := if accept then .ACCEPTED else .REJECTED } ::
          (if accept then
            [WriteStep.putEvent
               { requesterEvent with
                 user_id := recipientEvent.user_id, status := .BUSY },
             WriteStep.putEvent
               { recipientEvent with
                 user_id := requesterEvent.user_id, status := .BUSY }]
          else
            [WriteStep.setEventStatus swapRequest.requester_event_id .SWAPPABLE,
             WriteStep.setEventStatus swapRequest.recipient_event_id .SWAPPABLE]))
      | _, _ => .error (.notFound "One or both events no longer exist")

/-- The respond handler when every write succeeds. -/
def respond (db : DB) (uid reqId : Nat) (accept : Bool) : Except ApiError DB :=
  (respondPlan db uid reqId accept).map (applyWrites db)

/-! ### Read-only listing routes -/

/-- Field access on a stored swap-request document, as MongoDB sees it:
`timestamps: true` materialises `createdAt`; in particular there is no
field named `created_at` on the documents. -/
def SwapRequest.getField (r : SwapRequest) (f : String) : Option Int :=
  if f = "createdAt" then some r.createdAt
  else if f = "_id" then some (r.id : Int)
  else none

/-- MongoDB comparison used by `sort`: a missing field sorts as null,
below every number. -/
def keyLt : Option Int → Option Int → Bool
  | none, none => false
  | none, some _ => true
  | some _, none => false
  | some x, some y => decide (x < y)

def insertByDesc (key : SwapRequest → Option Int) (x : SwapRequest) :
    List SwapRequest → List SwapRequest
  | [] => [x]
  | y :: ys =>
    if keyLt (key y) (key x) then x :: y :: ys else y :: insertByDesc key x ys

/-- `sort({ field: -1 })`: descending, with documents whose keys compare
equal kept in collection order. -/
def sortByDesc (key : SwapRequest → Option Int) (l : List SwapRequest) :
    List SwapRequest :=
  l.foldl (fun acc x => insertByDesc key x acc) []

/-- `GET /api/swap-requests/incoming`:
`SwapRequest.find({ recipient_id }).sort({ created_at: -1 })`.
Note the sort key is the literal string `created_at`. -/
def listIncoming (db : DB) (uid : Nat) : List SwapRequest :=
  sortByDesc (fun r => r.getField "created_at")
    (db.requests.filter fun r => r.recipient_id = uid)

/-- `GET /api/swap-requests/outgoing`:
`SwapRequest.find({ requester_id }).sort({ created_at: -1 })`. -/
def listOutgoing (db : DB) (uid : Nat) : List SwapRequest :=
  sortByDesc (fun r => r.getField "created_at")
    (db.requests.filter fun r => r.requester_id = uid)

/-! ### The operation alphabet and reachable states -/

/-- One state-changing API call, with the authenticated caller `uid`
carried explicitly. -/
inductive Op : Type
  | create (uid : Nat) (title : String) (startT endT : Int) (st : Option EventStatus)
  | update (uid eid : Nat) (title : Option String) (startT endT : Option Int)
      (st : Option EventStatus)
  | delete (uid eid : Nat)
  | propose (uid mySlotId theirSlotId : Nat) (now : Int)
  | respond (uid reqId : Nat) (accept : Bool)
deriving DecidableEq, Repr

def runOp (db : DB) : Op → Except ApiError DB
  | .create uid t s e st => createEvent db uid t s e st
  | .update uid eid t s e st => updateEvent db uid eid t s e st
  | .delete uid eid => deleteEvent db uid eid
  | .propose uid a b now => propose db uid a b now
  | .respond uid rid accept => respond db uid rid accept

/-- A failing handler performs no write, so the state is unchanged. -/
def applyOp (db : DB) (op : Op) : DB :=
  match runOp db op with
  | .ok db2 => db2
  | .error _ => db

def runOps (ops : List Op) : DB :=
  ops.foldl applyOp initDB

/-- An operation that does not inject the `SWAP_PENDING` status through
the create/update event routes. -/
def opAllowed : Op → Bool
  | .create _ _ _ _ st => match st with | some .SWAP_PENDING => false | _ => true
  | .update _ _ _ _ _ st => match st with | some .SWAP_PENDING => false | _ => true
  | _ => true

/-! ### The spec invariant -/

/-- Number of `PENDING` requests referencing event `i` on either side. -/
def pendingRefCount (rs : List SwapRequest) (i : Nat) : Nat :=
  countPP (fun r => r.status = .PENDING ∧
    (r.requester_event_id = i ∨ r.recipient_event_id = i)) rs

/-- The spec invariant: an event's status is `SWAP_PENDING` iff exactly
one `PENDING` request references it. -/
def eventInvariant (db : DB) : Prop :=
  ∀ e ∈ db.events, (e.status = EventStatus.SWAP_PENDING ↔
    pendingRefCount db.requests e.id = 1)

/-- Strengthened inductive invariant: the count equation, uniqueness of
ids in both collections, and freshness bounds from the id counter. -/
def InvStrong (db : DB) : Prop :=
  (∀ e ∈ db.events,
    pendingRefCount db.requests e.id =
      (if e.status = EventStatus.SWAP_PENDING then 1 else 0)) ∧
  (db.events.map Event.id).Nodup ∧
  (db.requests.map SwapRequest.id).Nodup ∧
  (∀ e ∈ db.events, e.id < db.nextId) ∧
  (∀ r ∈ db.requests, r.id < db.nextId ∧
    r.requester_event_id < db.nextId ∧ r.recipient_event_id < db.nextId)

instance (db : DB) : Decidable (eventInvariant db) := by
  unfold eventInvariant; infer_instance

/-! ### Library lemmas -/

theorem findP_eq_some {α : Type} {p : α → Prop} [DecidablePred p] {l : List α}
    {x : α} (h : findP p l = some x) : x ∈ l ∧ p x := by
  induction l with
  | nil => simp [findP] at h
  | cons a t ih =>
    by_cases hp : p a
    · simp only [findP, if_pos hp, Option.some.injEq] at h
      subst h; exact ⟨List.mem_cons_self a t, hp⟩
    · simp only [findP, if_neg hp] at h
      obtain ⟨hm, hx⟩ := ih h
      exact ⟨List.mem_cons_of_mem a hm, hx⟩

theorem findP_none_of_all {α : Type} {p : α → Prop} [DecidablePred p]
    {l : List α} (h : ∀ x ∈ l, ¬ p x) : findP p l = none := by
  induction l with
  | nil => rfl
  | cons a t ih =>
    simp only [findP, if_neg (h a (List.mem_cons_self a t))]
    exact ih fun x hx => h x (List.mem_cons_of_mem a hx)

theorem findP_append_none {α : Type} {p : α → Prop} [DecidablePred p]
    {l l' : List α} (h : findP p l = none) : findP p (l ++ l') = findP p l' := by
  induction l with
  | nil => rfl
  | cons a t ih =>
    by_cases hp : p a
    · simp [findP, if_pos hp] at h
    · simp only [findP, if_neg hp] at h
      simpa only [List.cons_append, findP, if_neg hp] using ih h

theorem countPP_append {α : Type} (p : α → Prop) [DecidablePred p]
    (l l' : List α) : countPP p (l ++ l') = countPP p l + countPP p l' := by
  induction l with
  | nil => simp [countPP]
  | cons a t ih =>
    show (if p a then 1 else 0) + countPP p (t ++ l')
      = ((if p a then 1 else 0) + countPP p t) + countPP p l'
    rw [ih, Nat.add_assoc]

theorem countPP_eq_zero {α : Type} {p : α → Prop} [DecidablePred p]
    {l : List α} (h : ∀ x ∈ l, ¬ p x) : countPP p l = 0 := by
  induction l with
  | nil => rfl
  | cons a t ih =>
    simp only [countPP, if_neg (h a (List.mem_cons_self a t)), Nat.zero_add]
    exact ih fun x hx => h x (List.mem_cons_of_mem a hx)

theorem one_le_countPP {α : Type} {p : α → Prop} [DecidablePred p]
    {l : List α} {x : α} (hx : x ∈ l) (hp : p x) : 1 ≤ countPP p l := by
  induction l with
  | nil => cases hx
  | cons a t ih =>
    rcases List.mem_cons.mp hx with h | h
    · subst h; simp only [countPP, if_pos hp]; omega
    · have := ih h; simp only [countPP]; omega

theorem removeP_sublist {α : Type} (p : α → Prop) [DecidablePred p]
    (l : List α) : List.Sublist (removeP p l) l := by
  induction l with
  | nil => exact List.Sublist.refl _
  | cons a t ih =>
    by_cases hp : p a
    · simpa only [removeP, if_pos hp] using List.Sublist.cons a ih
    · simpa only [removeP, if_neg hp] using List.Sublist.cons₂ a ih

theorem mem_removeP {α : Type} {p : α → Prop} [DecidablePred p]
    {l : List α} {x : α} (h : x ∈ removeP p l) : x ∈ l :=
  (removeP_sublist p l).mem h

theorem map_map_key {α β : Type} {f : α → α} {g : α → β}
    (hf : ∀ x, g (f x) = g x) (l : List α) :
    (l.map f).map g = l.map g := by
  rw [List.map_map]
  exact List.map_congr_left fun x _ => hf x

theorem findP_key_map {α : Type} {f : α → α} {g : α → Nat}
    (hf : ∀ x, g (f x) = g x) (i : Nat) (l : List α) :
    findP (fun x => g x = i) (l.map f) =
      (findP (fun x => g x = i) l).map f := by
  induction l with
  | nil => rfl
  | cons a t ih =>
    by_cases hp : g a = i
    · simp only [List.map_cons, findP, hf, if_pos hp]; rfl
    · simp only [List.map_cons, findP, hf, if_neg hp, ih]

theorem map_update_eq_self {α : Type} {g : α → Nat} {l : List α} {i : Nat}
    (h : ∀ q ∈ l, ¬ g q = i) (r' : α) :
    (l.map fun q => if g q = i then r' else q) = l := by
  conv_rhs => rw [← List.map_id l]
  exact List.map_congr_left fun x hx => by rw [if_neg (h x hx)]; rfl

theorem nodup_key_inj {α : Type} {g : α → Nat} {l : List α}
    (hnd : (l.map g).Nodup) {x y : α} (hx : x ∈ l) (hy : y ∈ l)
    (hxy : g x = g y) : x = y :=
  List.inj_on_of_nodup_map hnd hx hy hxy

theorem nodup_append_single {l : List Nat} {a : Nat} (h : l.Nodup)
    (ha : a ∉ l) : (l ++ [a]).Nodup := by
  simp [List.nodup_append, h, ha]

theorem countPP_map_update {α : Type} {g : α → Nat} {l : List α}
    (hnd : (l.map g).Nodup) {r0 : α} (hr : r0 ∈ l) {i : Nat} (hi : g r0 = i)
    (r' : α) (p : α → Prop) [DecidablePred p] :
    countPP p (l.map fun q => if g q = i then r' else q) +
        (if p r0 then 1 else 0)
      = countPP p l + (if p r' then 1 else 0) := by
  induction l with
  | nil => cases hr
  | cons a t ih =>
    simp only [List.map_cons, List.nodup_cons] at hnd
    by_cases ha : g a = i
    · have har : r0 = a := by
        rcases List.mem_cons.mp hr with h | h
        · exact h
        · exfalso
          apply hnd.1
          rw [ha]
          have hmem : g r0 ∈ t.map g := List.mem_map.mpr ⟨r0, h, rfl⟩
          rwa [hi] at hmem
      subst har
      have htid : ∀ q ∈ t, ¬ g q = i := by
        intro q hq hqi
        apply hnd.1
        rw [ha, ← hqi]
        exact List.mem_map.mpr ⟨q, hq, rfl⟩
      rw [List.map_cons, if_pos ha, map_update_eq_self htid]
      simp only [countPP]
      omega
    · have hrt : r0 ∈ t := by
        rcases List.mem_cons.mp hr with h | h
        · exact absurd (h ▸ hi) ha
        · exact h
      have hrec := ih hnd.2 hrt
      rw [List.map_cons, if_neg ha]
      simp only [countPP]
      omega

theorem setStatusById_setStatusById (a b : Nat) (s : EventStatus)
    (l : List Event) :
    setStatusById a s (setStatusById b s l) =
      l.map fun e => if e.id = a ∨ e.id = b then { e with status := s } else e := by
  simp only [setStatusById, List.map_map]
  refine List.map_congr_left fun e _ => ?_
  simp only [Function.comp_apply]
  by_cases hb : e.id = b
  · rw [if_pos hb]
    dsimp only
    by_cases ha : e.id = a
    · rw [if_pos ha, if_pos (Or.inl ha)]
    · rw [if_neg ha, if_pos (Or.inr hb)]
  · rw [if_neg hb]
    by_cases ha : e.id = a
    · rw [if_pos ha, if_pos (Or.inl ha)]
    · rw [if_neg ha, if_neg (by rintro (h | h) <;> [exact ha h; exact hb h])]

theorem putEventDoc_putEventDoc (e1 e2 : Event) (l : List Event) :
    putEventDoc e2 (putEventDoc e1 l) =
      l.map fun x => if x.id = e2.id then e2
        else if x.id = e1.id then e1 else x := by
  simp only [putEventDoc, List.map_map]
  refine List.map_congr_left fun x _ => ?_
  simp only [Function.comp_apply]
  by_cases h1 : x.id = e1.id
  · rw [if_pos h1]
    by_cases h12 : e1.id = e2.id
    · rw [if_pos h12, if_pos (h1.trans h12)]
    · rw [if_neg h12, if_neg (fun hc => h12 (by rw [← h1]; exact hc))]
  · rw [if_neg h1]

theorem pendingRefCount_append (rs rs' : List SwapRequest) (i : Nat) :
    pendingRefCount (rs ++ rs') i =
      pendingRefCount rs i + pendingRefCount rs' i :=
  countPP_append _ rs rs'

theorem putEventDoc_map_id (e' : Event) (l : List Event) :
    (putEventDoc e' l).map Event.id = l.map Event.id :=
  map_map_key
    (fun x => by
      by_cases h : x.id = e'.id
      · rw [if_pos h]; exact h.symm
      · rw [if_neg h]) l

theorem setStatusById_map_id (i : Nat) (s : EventStatus) (l : List Event) :
    (setStatusById i s l).map Event.id = l.map Event.id :=
  map_map_key
    (fun x => by
      by_cases h : x.id = i
      · rw [if_pos h]
      · rw [if_neg h]) l

/-! ### Invariant preservation, one operation at a time -/

theorem inv_createEvent {db db' : DB} {uid : Nat} {t : String} {s e : Int}
    {st : Option EventStatus} (hst : st ≠ some EventStatus.SWAP_PENDING)
    (hok : createEvent db uid t s e st = .ok db') (h : InvStrong db) :
    InvStrong db' := by
  obtain ⟨h1, h2, h3, h4, h5⟩ := h
  unfold createEvent at hok
  split_ifs at hok
  injection hok with hdb
  subst hdb
  refine ⟨?_, ?_, h3, ?_, ?_⟩
  · intro x hx
    rcases List.mem_append.mp hx with hx | hx
    · exact h1 x hx
    · rcases List.mem_singleton.mp hx with rfl
      have hc : pendingRefCount db.requests db.nextId = 0 := by
        refine countPP_eq_zero fun r hr => ?_
        rintro ⟨-, hrr | hrr⟩
        · exact absurd hrr (Nat.ne_of_lt (h5 r hr).2.1)
        · exact absurd hrr (Nat.ne_of_lt (h5 r hr).2.2)
      have hs : st.getD .BUSY ≠ EventStatus.SWAP_PENDING := by
        cases st with
        | none => intro hcon; exact EventStatus.noConfusion hcon
        | some s' => intro hcon; exact hst (by rw [Option.getD] at hcon; rw [hcon])
      simpa [pendingRefCount, if_neg hs] using hc
  · rw [List.map_append]
    refine nodup_append_single h2 ?_
    intro hmem
    obtain ⟨y, hy, hid⟩ := List.mem_map.mp hmem
    exact absurd hid (Nat.ne_of_lt (h4 y hy))
  · intro x hx
    rcases List.mem_append.mp hx with hx | hx
    · exact Nat.lt_succ_of_lt (h4 x hx)
    · rcases List.mem_singleton.mp hx with rfl
      exact Nat.lt_succ_self _
  · intro r hr
    obtain ⟨b1, b2, b3⟩ := h5 r hr
    exact ⟨Nat.lt_succ_of_lt b1, Nat.lt_succ_of_lt b2, Nat.lt_succ_of_lt b3⟩

theorem inv_updateEvent {db db' : DB} {uid eid : Nat} {t : Option String}
    {s e : Option Int} {st : Option EventStatus}
    (hst : st ≠ some EventStatus.SWAP_PENDING)
    (hok : updateEvent db uid eid t s e st = .ok db') (h : InvStrong db) :
    InvStrong db' := by
  obtain ⟨h1, h2, h3, h4, h5⟩ := h
  unfold updateEvent at hok
  cases hfind : findEventOwned db uid eid with
  | none => simp only [hfind] at hok; exact Except.noConfusion hok
  | some ev =>
    simp only [hfind] at hok
    split_ifs at hok with hsp
    injection hok with hdb
    subst hdb
    obtain ⟨hmem, hevid, -⟩ :
        ev ∈ db.events ∧ ev.id = eid ∧ ev.user_id = uid := by
      have := findP_eq_some hfind
      exact ⟨this.1, this.2.1, this.2.2⟩
    refine ⟨?_, ?_, h3, ?_, h5⟩
    · intro x hx
      obtain ⟨y, hy, hxy⟩ := List.mem_map.mp hx
      by_cases hyid : y.id = ev.id
      · have hyev : y = ev := nodup_key_inj h2 hy hmem hyid
        subst hyev
        rw [if_pos rfl] at hxy
        subst hxy
        have hcount := h1 y hy
        rw [if_neg hsp] at hcount
        have hs' : st.getD y.status ≠ EventStatus.SWAP_PENDING := by
          cases st with
          | none => exact hsp
          | some s' =>
            intro hcon
            exact hst (by rw [Option.getD] at hcon; rw [hcon])
        simpa [if_neg hs'] using hcount
      · rw [if_neg hyid] at hxy
        subst hxy
        exact h1 y hy
    · rw [show (putEventDoc _ db.events).map Event.id
          = db.events.map Event.id from putEventDoc_map_id _ _]
      exact h2
    · intro x hx
      obtain ⟨y, hy, hxy⟩ := List.mem_map.mp hx
      by_cases hyid : y.id = ev.id
      · rw [if_pos hyid] at hxy
        subst hxy
        exact show ev.id < db.nextId from hyid ▸ h4 y hy
      · rw [if_neg hyid] at hxy; subst hxy; exact h4 y hy

theorem inv_deleteEvent {db db' : DB} {uid eid : Nat}
    (hok : deleteEvent db uid eid = .ok db') (h : InvStrong db) :
    InvStrong db' := by
  obtain ⟨h1, h2, h3, h4, h5⟩ := h
  unfold deleteEvent at hok
  cases hfind : findEventOwned db uid eid with
  | none => simp only [hfind] at hok; exact Except.noConfusion hok
  | some ev =>
    simp only [hfind] at hok
    injection hok with hdb
    subst hdb
    refine ⟨?_, ?_, h3, ?_, h5⟩
    · intro x hx
      exact h1 x (mem_removeP hx)
    · exact List.Nodup.sublist
        (List.Sublist.map Event.id (removeP_sublist _ db.events)) h2
    · intro x hx
      exact h4 x (mem_removeP hx)

theorem bound_of_map_id_eq {l' l : List Event} {n : Nat}
    (heq : l'.map Event.id = l.map Event.id) (h : ∀ e ∈ l, e.id < n) :
    ∀ e ∈ l', e.id < n := by
  intro x hx
  have hmem : x.id ∈ l'.map Event.id := List.mem_map_of_mem Event.id hx
  rw [heq] at hmem
  obtain ⟨y, hy, hid⟩ := List.mem_map.mp hmem
  exact hid ▸ h y hy

theorem putReqDoc_map_id (r' : SwapRequest) (l : List SwapRequest) :
    ((l.map fun q => if q.id = r'.id then r' else q).map SwapRequest.id)
      = l.map SwapRequest.id :=
  map_map_key
    (fun q => by
      by_cases h : q.id = r'.id
      · rw [if_pos h]; exact h.symm
      · rw [if_neg h]) l

theorem inv_propose {db db' : DB} {uid a b : Nat} {now : Int}
    (hok : propose db uid a b now = .ok db') (h : InvStrong db) :
    InvStrong db' := by
  obtain ⟨h1, h2, h3, h4, h5⟩ := h
  unfold propose at hok
  cases hfa : findEvent db a with
  | none => simp only [hfa] at hok; exact Except.noConfusion hok
  | some e1 =>
  cases hfb : findEvent db b with
  | none => simp only [hfa, hfb] at hok; exact Except.noConfusion hok
  | some e2 =>
  simp only [hfa, hfb] at hok
  split_ifs at hok with hown hsw
  injection hok with hdb
  subst hdb
  obtain ⟨he1mem, he1id⟩ := findP_eq_some hfa
  obtain ⟨he2mem, he2id⟩ := findP_eq_some hfb
  have hs1 : e1.status = EventStatus.SWAPPABLE := by
    by_contra hc; exact hsw (Or.inl hc)
  have hs2 : e2.status = EventStatus.SWAPPABLE := by
    by_contra hc; exact hsw (Or.inr hc)
  have hcnt : ∀ i, pendingRefCount (db.requests ++
      [{ id := db.nextId, requester_id := uid, requester_event_id := a,
         recipient_id := e2.user_id, recipient_event_id := b,
         status := .PENDING, createdAt := now }]) i
      = pendingRefCount db.requests i + (if a = i ∨ b = i then 1 else 0) := by
    intro i
    rw [pendingRefCount_append]
    congr 1
    simp [pendingRefCount, countPP]
  refine ⟨?_, ?_, ?_, ?_, ?_⟩ <;> dsimp only
  · intro x hx
    rw [setStatusById_setStatusById] at hx
    obtain ⟨y, hy, hxy⟩ := List.mem_map.mp hx
    by_cases hya : y.id = a
    · have hye1 : y = e1 := nodup_key_inj h2 hy he1mem (by rw [hya, he1id])
      subst hye1
      rw [if_pos (Or.inl hya)] at hxy
      subst hxy
      have hc0 : pendingRefCount db.requests y.id = 0 := by
        have hh := h1 y hy
        rw [hs1] at hh
        simpa using hh
      dsimp only
      rw [if_pos rfl, hcnt, hc0, if_pos (Or.inl hya.symm)]
    · by_cases hyb : y.id = b
      · have hye2 : y = e2 := nodup_key_inj h2 hy he2mem (by rw [hyb, he2id])
        subst hye2
        rw [if_pos (Or.inr hyb)] at hxy
        subst hxy
        have hc0 : pendingRefCount db.requests y.id = 0 := by
          have hh := h1 y hy
          rw [hs2] at hh
          simpa using hh
        dsimp only
        rw [if_pos rfl, hcnt, hc0, if_pos (Or.inr hyb.symm)]
      · rw [if_neg (by rintro (hc | hc); exacts [hya hc, hyb hc])] at hxy
        subst hxy
        rw [hcnt, if_neg (by rintro (hc | hc); exacts [hya hc.symm, hyb hc.symm]),
          Nat.add_zero]
        exact h1 y hy
  · rw [setStatusById_map_id, setStatusById_map_id]
    exact h2
  · rw [List.map_append]
    refine nodup_append_single h3 ?_
    intro hmem
    obtain ⟨q, hq, hid⟩ := List.mem_map.mp hmem
    exact absurd hid (Nat.ne_of_lt (h5 q hq).1)
  · have heq : (setStatusById a EventStatus.SWAP_PENDING
        (setStatusById b EventStatus.SWAP_PENDING db.events)).map Event.id
        = db.events.map Event.id := by
      rw [setStatusById_map_id, setStatusById_map_id]
    exact bound_of_map_id_eq heq fun x hx => Nat.lt_succ_of_lt (h4 x hx)
  · intro r hr
    rcases List.mem_append.mp hr with hr | hr
    · obtain ⟨b1, b2, b3⟩ := h5 r hr
      exact ⟨Nat.lt_succ_of_lt b1, Nat.lt_succ_of_lt b2, Nat.lt_succ_of_lt b3⟩
    · rcases List.mem_singleton.mp hr with rfl
      refine ⟨Nat.lt_succ_self _, ?_, ?_⟩
      · exact Nat.lt_succ_of_lt (he1id ▸ h4 e1 he1mem)
      · exact Nat.lt_succ_of_lt (he2id ▸ h4 e2 he2mem)

/-- Facts available inside a successful respond: both referenced events
are locked with reference count one, and replacing the pending request
by a resolved copy decrements the count on exactly its two events. -/
theorem respond_facts {db : DB} {r : SwapRequest} {e1 e2 : Event}
    (h : InvStrong db) (hrmem : r ∈ db.requests)
    (hpend : r.status = ReqStatus.PENDING)
    (he1mem : e1 ∈ db.events) (he1id : e1.id = r.requester_event_id)
    (he2mem : e2 ∈ db.events) (he2id : e2.id = r.recipient_event_id) :
    (e1.status = EventStatus.SWAP_PENDING ∧
      pendingRefCount db.requests e1.id = 1) ∧
    (e2.status = EventStatus.SWAP_PENDING ∧
      pendingRefCount db.requests e2.id = 1) ∧
    (∀ r' : SwapRequest, r'.status ≠ ReqStatus.PENDING →
      ∀ i, pendingRefCount
        (db.requests.map fun q => if q.id = r.id then r' else q) i
        + (if r.requester_event_id = i ∨ r.recipient_event_id = i then 1 else 0)
      = pendingRefCount db.requests i) := by
  obtain ⟨h1, h2, h3, h4, h5⟩ := h
  refine ⟨?_, ?_, ?_⟩
  · have hge : 1 ≤ pendingRefCount db.requests e1.id :=
      one_le_countPP hrmem ⟨hpend, Or.inl he1id.symm⟩
    have hh := h1 e1 he1mem
    by_cases hs : e1.status = EventStatus.SWAP_PENDING
    · exact ⟨hs, by rw [hh, if_pos hs]⟩
    · rw [if_neg hs] at hh
      omega
  · have hge : 1 ≤ pendingRefCount db.requests e2.id :=
      one_le_countPP hrmem ⟨hpend, Or.inr he2id.symm⟩
    have hh := h1 e2 he2mem
    by_cases hs : e2.status = EventStatus.SWAP_PENDING
    · exact ⟨hs, by rw [hh, if_pos hs]⟩
    · rw [if_neg hs] at hh
      omega
  · intro r' hst i
    have hmu := countPP_map_update h3 hrmem (rfl : r.id = r.id) r'
      (fun q => q.status = ReqStatus.PENDING ∧
        (q.requester_event_id = i ∨ q.recipient_event_id = i))
    have hcond : (if (r.status = ReqStatus.PENDING ∧
        (r.requester_event_id = i ∨ r.recipient_event_id = i)) then 1 else 0)
        = (if (r.requester_event_id = i ∨ r.recipient_event_id = i)
            then (1 : Nat) else 0) := by
      simp [hpend]
    have hpr' : ¬(r'.status = ReqStatus.PENDING ∧
        (r'.requester_event_id = i ∨ r'.recipient_event_id = i)) :=
      fun hc => hst hc.1
    rw [hcond, if_neg hpr', Nat.add_zero] at hmu
    exact hmu

theorem reqReplace_map_id (j : Nat) (r' : SwapRequest) (hj : r'.id = j)
    (l : List SwapRequest) :
    ((l.map fun q => if q.id = j then r' else q).map SwapRequest.id)
      = l.map SwapRequest.id :=
  map_map_key
    (fun q => by
      by_cases h : q.id = j
      · rw [if_pos h, hj, h]
      · rw [if_neg h]) l

/-- The reject write sequence of the respond handler preserves the
strengthened invariant. -/
theorem inv_respond_reject {db : DB} {r : SwapRequest} {e1 e2 : Event}
    (h : InvStrong db) (hrmem : r ∈ db.requests)
    (hpend : r.status = ReqStatus.PENDING)
    (he1mem : e1 ∈ db.events) (he1id : e1.id = r.requester_event_id)
    (he2mem : e2 ∈ db.events) (he2id : e2.id = r.recipient_event_id) :
    InvStrong (applyWrites db
      [WriteStep.putRequest { r with status := ReqStatus.REJECTED },
       WriteStep.setEventStatus r.requester_event_id EventStatus.SWAPPABLE,
       WriteStep.setEventStatus r.recipient_event_id EventStatus.SWAPPABLE]) := by
  obtain ⟨hsp1, hsp2, hcnt⟩ := respond_facts h hrmem hpend he1mem he1id he2mem he2id
  obtain ⟨h1, h2, h3, h4, h5⟩ := h
  have hcnt' := hcnt { r with status := ReqStatus.REJECTED }
    (fun hc => ReqStatus.noConfusion hc)
  refine ⟨?_, ?_, ?_, ?_, ?_⟩ <;>
    dsimp only [applyWrites, List.foldl, applyWrite]
  · intro x hx
    rw [setStatusById_setStatusById] at hx
    obtain ⟨y, hy, hxy⟩ := List.mem_map.mp hx
    by_cases hyb : y.id = r.recipient_event_id
    · rw [if_pos (Or.inl hyb)] at hxy
      subst hxy
      dsimp only
      rw [if_neg (fun hc => EventStatus.noConfusion hc)]
      have hc := hcnt' y.id
      rw [if_pos (Or.inr hyb.symm)] at hc
      have hcy : pendingRefCount db.requests y.id = 1 := by
        rw [hyb, ← he2id]; exact hsp2.2
      omega
    · by_cases hya : y.id = r.requester_event_id
      · rw [if_pos (Or.inr hya)] at hxy
        subst hxy
        dsimp only
        rw [if_neg (fun hc => EventStatus.noConfusion hc)]
        have hc := hcnt' y.id
        rw [if_pos (Or.inl hya.symm)] at hc
        have hcy : pendingRefCount db.requests y.id = 1 := by
          rw [hya, ← he1id]; exact hsp1.2
        omega
      · rw [if_neg (by rintro (hc | hc); exacts [hyb hc, hya hc])] at hxy
        subst hxy
        have hc := hcnt' y.id
        rw [if_neg (by rintro (hc | hc); exacts [hya hc.symm, hyb hc.symm]),
          Nat.add_zero] at hc
        rw [hc]
        exact h1 y hy
  · rw [setStatusById_map_id, setStatusById_map_id]
    exact h2
  · rw [reqReplace_map_id r.id { r with status := ReqStatus.REJECTED } rfl]
    exact h3
  · have heq : (setStatusById r.recipient_event_id EventStatus.SWAPPABLE
        (setStatusById r.requester_event_id EventStatus.SWAPPABLE
          db.events)).map Event.id = db.events.map Event.id := by
      rw [setStatusById_map_id, setStatusById_map_id]
    exact bound_of_map_id_eq heq h4
  · intro q hq
    obtain ⟨p, hp, hqp⟩ := List.mem_map.mp hq
    by_cases hpid : p.id = r.id
    · rw [if_pos hpid] at hqp
      subst hqp
      exact h5 r hrmem
    · rw [if_neg hpid] at hqp
      subst hqp
      exact h5 p hp

/-- The accept write sequence of the respond handler preserves the
strengthened invariant. -/
theorem inv_respond_accept {db : DB} {r : SwapRequest} {e1 e2 : Event}
    (h : InvStrong db) (hrmem : r ∈ db.requests)
    (hpend : r.status = ReqStatus.PENDING)
    (he1mem : e1 ∈ db.events) (he1id : e1.id = r.requester_event_id)
    (he2mem : e2 ∈ db.events) (he2id : e2.id = r.recipient_event_id) :
    InvStrong (applyWrites db
      [WriteStep.putRequest { r with status := ReqStatus.ACCEPTED },
       WriteStep.putEvent
         { e1 with user_id := e2.user_id, status := EventStatus.BUSY },
       WriteStep.putEvent
         { e2 with user_id := e1.user_id, status := EventStatus.BUSY }]) := by
  obtain ⟨hsp1, hsp2, hcnt⟩ := respond_facts h hrmem hpend he1mem he1id he2mem he2id
  obtain ⟨h1, h2, h3, h4, h5⟩ := h
  have hcnt' := hcnt { r with status := ReqStatus.ACCEPTED }
    (fun hc => ReqStatus.noConfusion hc)
  refine ⟨?_, ?_, ?_, ?_, ?_⟩ <;>
    dsimp only [applyWrites, List.foldl, applyWrite]
  · intro x hx
    rw [putEventDoc_putEventDoc] at hx
    obtain ⟨y, hy, hxy⟩ := List.mem_map.mp hx
    dsimp only at hxy
    by_cases hyb : y.id = e2.id
    · rw [if_pos hyb] at hxy
      subst hxy
      dsimp only
      rw [if_neg (fun hc => EventStatus.noConfusion hc)]
      have hc := hcnt' e2.id
      rw [if_pos (Or.inr he2id.symm)] at hc
      omega
    · by_cases hya : y.id = e1.id
      · rw [if_neg hyb, if_pos hya] at hxy
        subst hxy
        dsimp only
        rw [if_neg (fun hc => EventStatus.noConfusion hc)]
        have hc := hcnt' e1.id
        rw [if_pos (Or.inl he1id.symm)] at hc
        omega
      · rw [if_neg hyb, if_neg hya] at hxy
        subst hxy
        have hc := hcnt' y.id
        rw [if_neg (by
          rintro (hc | hc)
          · exact hya (he1id.trans hc).symm
          · exact hyb (he2id.trans hc).symm), Nat.add_zero] at hc
        rw [hc]
        exact h1 y hy
  · rw [putEventDoc_map_id, putEventDoc_map_id]
    exact h2
  · rw [reqReplace_map_id r.id { r with status := ReqStatus.ACCEPTED } rfl]
    exact h3
  · have heq : (putEventDoc
        { e2 with user_id := e1.user_id, status := EventStatus.BUSY }
        (putEventDoc
          { e1 with user_id := e2.user_id, status := EventStatus.BUSY }
          db.events)).map Event.id = db.events.map Event.id := by
      rw [putEventDoc_map_id, putEventDoc_map_id]
    exact bound_of_map_id_eq heq h4
  · intro q hq
    obtain ⟨p, hp, hqp⟩ := List.mem_map.mp hq
    by_cases hpid : p.id = r.id
    · rw [if_pos hpid] at hqp
      subst hqp
      exact h5 r hrmem
    · rw [if_neg hpid] at hqp
      subst hqp
      exact h5 p hp

theorem inv_respond {db db' : DB} {uid rid : Nat} {acc : Bool}
    (hok : respond db uid rid acc = .ok db') (h : InvStrong db) :
    InvStrong db' := by
  unfold respond at hok
  cases hplan : respondPlan db uid rid acc with
  | error err => rw [hplan] at hok; exact Except.noConfusion hok
  | ok ws =>
  rw [hplan] at hok
  simp only [Except.map] at hok
  injection hok with hdb
  subst hdb
  unfold respondPlan at hplan
  cases hfr : findRequest db rid with
  | none => simp only [hfr] at hplan; exact Except.noConfusion hplan
  | some r =>
  simp only [hfr] at hplan
  split_ifs at hplan with hrec hpd hacc
  · -- accept branch (the condition on `accept` is true)
    cases hfe1 : findEvent db r.requester_event_id with
    | none => simp only [hfe1] at hplan; exact Except.noConfusion hplan
    | some e1 =>
    cases hfe2 : findEvent db r.recipient_event_id with
    | none => simp only [hfe1, hfe2] at hplan; exact Except.noConfusion hplan
    | some e2 =>
    simp only [hfe1, hfe2] at hplan
    injection hplan with hws
    subst hws
    obtain ⟨hrmem, -⟩ := findP_eq_some hfr
    obtain ⟨he1mem, he1id⟩ := findP_eq_some hfe1
    obtain ⟨he2mem, he2id⟩ := findP_eq_some hfe2
    exact inv_respond_accept h hrmem (not_not.mp hpd) he1mem he1id he2mem he2id
  · -- reject branch
    cases hfe1 : findEvent db r.requester_event_id with
    | none => simp only [hfe1] at hplan; exact Except.noConfusion hplan
    | some e1 =>
    cases hfe2 : findEvent db r.recipient_event_id with
    | none => simp only [hfe1, hfe2] at hplan; exact Except.noConfusion hplan
    | some e2 =>
    simp only [hfe1, hfe2] at hplan
    injection hplan with hws
    subst hws
    obtain ⟨hrmem, -⟩ := findP_eq_some hfr
    obtain ⟨he1mem, he1id⟩ := findP_eq_some hfe1
    obtain ⟨he2mem, he2id⟩ := findP_eq_some hfe2
    exact inv_respond_reject h hrmem (not_not.mp hpd) he1mem he1id he2mem he2id

theorem applyOp_of_error {db : DB} {op : Op} {e : ApiError}
    (h : runOp db op = .error e) : applyOp db op = db := by
  simp [applyOp, h]

theorem applyOp_of_ok {db db2 : DB} {op : Op}
    (h : runOp db op = .ok db2) : applyOp db op = db2 := by
  simp [applyOp, h]

/-- One step of any operation whose status argument stays inside
`{BUSY, SWAPPABLE}` preserves the strengthened invariant. -/
theorem invStep {db : DB} {op : Op} (h : InvStrong db)
    (ha : opAllowed op = true) : InvStrong (applyOp db op) := by
  cases hop : runOp db op with
  | error e => rw [applyOp_of_error hop]; exact h
  | ok db2 =>
    rw [applyOp_of_ok hop]
    cases op with
    | create uid t s e st =>
      have hst : st ≠ some EventStatus.SWAP_PENDING := by
        intro hc; rw [hc] at ha; exact Bool.noConfusion ha
      exact inv_createEvent hst hop h
    | update uid eid t s e st =>
      have hst : st ≠ some EventStatus.SWAP_PENDING := by
        intro hc; rw [hc] at ha; exact Bool.noConfusion ha
      exact inv_updateEvent hst hop h
    | delete uid eid => exact inv_deleteEvent hop h
    | propose uid a b now => exact inv_propose hop h
    | respond uid rid acc => exact inv_respond hop h

theorem inv_initDB : InvStrong initDB := by
  refine ⟨?_, ?_, ?_, ?_, ?_⟩ <;> simp [initDB]

theorem foldl_invariant : ∀ (ops : List Op) (db : DB), InvStrong db →
    (∀ op ∈ ops, opAllowed op = true) →
    InvStrong (ops.foldl applyOp db) := by
  intro ops
  induction ops with
  | nil => intro db h _; exact h
  | cons op t ih =>
    intro db h ha
    exact ih (applyOp db op) (invStep h (ha op (List.mem_cons_self op t)))
      fun o ho => ha o (List.mem_cons_of_mem op ho)

theorem eventInvariant_of_InvStrong {db : DB} (h : InvStrong db) :
    eventInvariant db := by
  intro e he
  have h1 := h.1 e he
  constructor
  · intro hs; rw [h1, if_pos hs]
  · intro hcnt
    by_contra hs
    rw [if_neg hs] at h1
    omega

/-! ### Concrete scenario states used by the claim theorems -/

/-- User 1 owns event 0 and user 2 owns event 1, both `SWAPPABLE`. -/
def dbPair : DB := runOps
  [Op.create 1 "Shift A" 0 60 (some .SWAPPABLE),
   Op.create 2 "Shift B" 60 120 (some .SWAPPABLE)]

/-- `dbPair` after user 1 proposes to swap event 0 for event 1: request 2
is `PENDING` and both events are `SWAP_PENDING`. -/
def dbLocked : DB := applyOp dbPair (Op.propose 1 0 1 5)

/-- `dbLocked` after user 2 accepts request 2. -/
def dbResolved : DB := applyOp dbLocked (Op.respond 2 2 true)

/-- User 1 owns both event 0 and event 1, both `SWAPPABLE`. -/
def dbSelf : DB := runOps
  [Op.create 1 "Early shift" 0 60 (some .SWAPPABLE),
   Op.create 1 "Late shift" 60 120 (some .SWAPPABLE)]

/-! ### Claim theorems -/

/-- C1, counterexample: the state reached from the empty store by the
single operation "create an event with caller-supplied status
`SWAP_PENDING`" violates the invariant "an event's status is
`SWAP_PENDING` iff exactly one `PENDING` request references it": the
event is `SWAP_PENDING` while no request at all exists. -/
theorem C1_counterexample :
    ¬ eventInvariant
      (runOps [Op.create 1 "Morning shift" 0 60 (some .SWAP_PENDING)]) := by
  decide

/-- C1, amended: the invariant "an event's status is `SWAP_PENDING` iff
exactly one `PENDING` request references it (on either side)" holds in
every state reachable from the empty store by create / update / delete
event, propose and respond, provided no create or update call supplies
the status `SWAP_PENDING` directly. -/
theorem C1_invariant_restricted (ops : List Op)
    (ha : ∀ op ∈ ops, opAllowed op = true) :
    eventInvariant (runOps ops) :=
  eventInvariant_of_InvStrong (foldl_invariant ops initDB inv_initDB ha)

/-- C1 witness: the invariant holds after a concrete create / create /
propose / accept run. -/
theorem C1_invariant_restricted_witness :
    eventInvariant (runOps
      [Op.create 1 "Shift A" 0 60 (some .SWAPPABLE),
       Op.create 2 "Shift B" 60 120 (some .SWAPPABLE),
       Op.propose 1 0 1 5,
       Op.respond 2 2 true]) :=
  C1_invariant_restricted _ (by decide)

/-- C3: in the respond handler the request status is saved before either
event document is written.  Applying only the first write of the accept
plan (the state the store is in if the event-side effect then fails)
leaves the request already `ACCEPTED` while both events are untouched —
the request does not remain `PENDING` as the claim requires. -/
theorem C3_request_resolved_before_event_writes :
    ∃ ws, respondPlan dbLocked 2 2 true = .ok ws ∧
      (applyWrites dbLocked (ws.take 1)).requests.map SwapRequest.status
        = [ReqStatus.ACCEPTED] ∧
      (applyWrites dbLocked (ws.take 1)).events = dbLocked.events ∧
      (applyWrites dbLocked (ws.take 1)).events.map Event.status
        = [EventStatus.SWAP_PENDING, EventStatus.SWAP_PENDING] :=
  ⟨_, rfl, by decide, by decide, by decide⟩

/-- C4: the delete-event route has no `SWAP_PENDING` guard.  In a state
where event 0 is `SWAP_PENDING` (locked by pending request 2), its owner
deletes it successfully and the event is gone, while the claim requires
the deletion to fail. -/
theorem C4_delete_swap_pending_succeeds :
    (findEvent dbLocked 0).map Event.status = some EventStatus.SWAP_PENDING ∧
    ∃ db2, deleteEvent dbLocked 1 0 = .ok db2 ∧ findEvent db2 0 = none ∧
      (findRequest db2 2).map SwapRequest.status = some ReqStatus.PENDING :=
  ⟨by decide, _, rfl, by decide, by decide⟩

/-- C5: the propose route has no self-swap guard.  With both events
`SWAPPABLE` and owned by user 1, propose succeeds and creates a
`PENDING` request whose requester and recipient are the same user, while
the claim requires a `SelfSwap` failure with no mutation. -/
theorem C5_self_swap_allowed :
    ∃ db2, propose dbSelf 1 0 1 7 = .ok db2 ∧
      (db2.requests.map fun r => (r.requester_id, r.recipient_id, r.status))
        = [(1, 1, ReqStatus.PENDING)] ∧
      db2.events.map Event.status
        = [EventStatus.SWAP_PENDING, EventStatus.SWAP_PENDING] :=
  ⟨_, rfl, by decide, by decide⟩

/-- C9: the incoming/outgoing list routes sort with
`sort({ created_at: -1 })`, but `timestamps: true` stores the creation
instant under `createdAt`, so the sort key is absent from every
document; all keys compare equal and the lists come back in collection
order.  Here recipient 7 has two incoming requests (the first created at
100, the second at 200) and both lists return them oldest first instead
of creation-time descending. -/
theorem C9_sort_field_mismatch :
    ∃ r1 r2 : SwapRequest,
      r1.createdAt < r2.createdAt ∧
      SwapRequest.getField r1 "created_at" = none ∧
      listIncoming { events := [], requests := [r1, r2], nextId := 12 } 7
        = [r1, r2] ∧
      listOutgoing { events := [], requests := [r1, r2], nextId := 12 } 3
        = [r1, r2] ∧
      r1 ≠ r2 :=
  ⟨⟨10, 3, 0, 7, 1, .PENDING, 100⟩, ⟨11, 3, 2, 7, 3, .PENDING, 200⟩,
    by decide, rfl, by decide, by decide, by decide⟩

theorem findP_putEventDoc (E : Event) (l : List Event) (i : Nat) :
    findP (fun x : Event => x.id = i) (putEventDoc E l)
      = (findP (fun x : Event => x.id = i) l).map
          fun x => if x.id = E.id then E else x := by
  simp only [putEventDoc]
  exact findP_key_map
    (fun x => by
      by_cases h : x.id = E.id
      · rw [if_pos h]; exact h.symm
      · rw [if_neg h]) i l

theorem findP_setStatusById (j : Nat) (s : EventStatus) (l : List Event)
    (i : Nat) :
    findP (fun x : Event => x.id = i) (setStatusById j s l)
      = (findP (fun x : Event => x.id = i) l).map
          fun e => if e.id = j then { e with status := s } else e := by
  simp only [setStatusById]
  exact findP_key_map
    (fun x => by
      by_cases h : x.id = j
      · rw [if_pos h]
      · rw [if_neg h]) i l

/-- C2: for a `PENDING` request whose two events exist and whose
recipient responds: accept swaps the two owners exactly and sets both
events `BUSY`; reject sets both events back to `SWAPPABLE` with owners
(and all other fields) unchanged. -/
theorem C2_respond_semantics {db : DB} {uid rid : Nat} {r : SwapRequest}
    {e1 e2 : Event}
    (hr : findRequest db rid = some r)
    (hpend : r.status = ReqStatus.PENDING)
    (hrec : r.recipient_id = uid)
    (h1 : findEvent db r.requester_event_id = some e1)
    (h2 : findEvent db r.recipient_event_id = some e2) :
    (∃ dbA, respond db uid rid true = .ok dbA ∧
      findEvent dbA r.requester_event_id
        = some { e1 with user_id := e2.user_id, status := EventStatus.BUSY } ∧
      findEvent dbA r.recipient_event_id
        = some { e2 with user_id := e1.user_id, status := EventStatus.BUSY }) ∧
    (∃ dbR, respond db uid rid false = .ok dbR ∧
      findEvent dbR r.requester_event_id
        = some { e1 with status := EventStatus.SWAPPABLE } ∧
      findEvent dbR r.recipient_event_id
        = some { e2 with status := EventStatus.SWAPPABLE }) := by
  obtain ⟨-, he1id⟩ := findP_eq_some h1
  obtain ⟨-, he2id⟩ := findP_eq_some h2
  have h1' : findP (fun x : Event => x.id = r.requester_event_id) db.events
      = some e1 := h1
  have h2' : findP (fun x : Event => x.id = r.recipient_event_id) db.events
      = some e2 := h2
  have hee12 : e1.id = e2.id → e1 = e2 := by
    intro hee
    have hab : r.requester_event_id = r.recipient_event_id := by
      rw [← he1id, ← he2id, hee]
    rw [hab, h2] at h1
    exact (Option.some.injEq _ _ ▸ h1).symm
  have hplanT : respondPlan db uid rid true = .ok
      [WriteStep.putRequest { r with status := ReqStatus.ACCEPTED },
       WriteStep.putEvent
         { e1 with user_id := e2.user_id, status := EventStatus.BUSY },
       WriteStep.putEvent
         { e2 with user_id := e1.user_id, status := EventStatus.BUSY }] := by
    unfold respondPlan
    simp only [hr, h1, h2]
    rw [if_neg (not_not_intro hrec), if_neg (not_not_intro hpend)]
    rfl
  have hplanF : respondPlan db uid rid false = .ok
      [WriteStep.putRequest { r with status := ReqStatus.REJECTED },
       WriteStep.setEventStatus r.requester_event_id EventStatus.SWAPPABLE,
       WriteStep.setEventStatus r.recipient_event_id EventStatus.SWAPPABLE] := by
    unfold respondPlan
    simp only [hr, h1, h2]
    rw [if_neg (not_not_intro hrec), if_neg (not_not_intro hpend)]
    rfl
  constructor
  · refine ⟨_, by unfold respond; rw [hplanT]; rfl, ?_, ?_⟩
    · show findP _ (putEventDoc _ (putEventDoc _ db.events)) = _
      rw [findP_putEventDoc, findP_putEventDoc, h1']
      dsimp only [Option.map]
      rw [if_pos (show e1.id = e1.id from rfl)]
      dsimp only
      by_cases hee : e1.id = e2.id
      · rw [if_pos hee]
        obtain rfl : e1 = e2 := hee12 hee
        rfl
      · rw [if_neg hee]
    · show findP _ (putEventDoc _ (putEventDoc _ db.events)) = _
      rw [findP_putEventDoc, findP_putEventDoc, h2']
      dsimp only [Option.map]
      by_cases hee : e1.id = e2.id
      · rw [if_pos (show e2.id = e1.id from hee.symm)]
        try dsimp only
        rw [if_pos (show e1.id = e2.id from hee)]
      · rw [if_neg (show ¬(e2.id = e1.id) from fun hc => hee hc.symm),
          if_pos (show e2.id = e2.id from rfl)]
  · refine ⟨_, by unfold respond; rw [hplanF]; rfl, ?_, ?_⟩
    · show findP _ (setStatusById _ _ (setStatusById _ _ db.events)) = _
      rw [findP_setStatusById, findP_setStatusById, h1']
      dsimp only [Option.map]
      rw [if_pos he1id]
      dsimp only
      by_cases heb : e1.id = r.recipient_event_id
      · rw [if_pos heb]
      · rw [if_neg heb]
    · show findP _ (setStatusById _ _ (setStatusById _ _ db.events)) = _
      rw [findP_setStatusById, findP_setStatusById, h2']
      dsimp only [Option.map]
      by_cases hea : e2.id = r.requester_event_id
      · rw [if_pos hea]
        try dsimp only
        rw [if_pos he2id]
      · rw [if_neg hea]
        try dsimp only
        rw [if_pos he2id]

/-- C2 witness: in the concrete locked state, accept swaps the two
owners and sets both events `BUSY`; reject restores both to `SWAPPABLE`
with owners unchanged. -/
theorem C2_respond_semantics_witness :
    (∃ dbA, respond dbLocked 2 2 true = .ok dbA ∧
      findEvent dbA 0
        = some ⟨0, 2, "Shift A", 0, 60, EventStatus.BUSY⟩ ∧
      findEvent dbA 1
        = some ⟨1, 1, "Shift B", 60, 120, EventStatus.BUSY⟩) ∧
    (∃ dbR, respond dbLocked 2 2 false = .ok dbR ∧
      findEvent dbR 0
        = some ⟨0, 1, "Shift A", 0, 60, EventStatus.SWAPPABLE⟩ ∧
      findEvent dbR 1
        = some ⟨1, 2, "Shift B", 60, 120, EventStatus.SWAPPABLE⟩) :=
  @C2_respond_semantics dbLocked 2 2 ⟨2, 1, 0, 2, 1, .PENDING, 5⟩
    ⟨0, 1, "Shift A", 0, 60, .SWAP_PENDING⟩
    ⟨1, 2, "Shift B", 60, 120, .SWAP_PENDING⟩
    rfl rfl rfl rfl rfl

/-- C6: when both events exist, the requester owns the first, and at
least one of the two is not `SWAPPABLE`, propose returns the 400
"no longer swappable" failure and the state is unchanged (no request is
created, no status is written). -/
theorem C6_propose_not_swappable {db : DB} {uid a b : Nat} {now : Int}
    {e1 e2 : Event}
    (h1 : findEvent db a = some e1) (h2 : findEvent db b = some e2)
    (hown : e1.user_id = uid)
    (hns : ¬(e1.status = EventStatus.SWAPPABLE ∧
      e2.status = EventStatus.SWAPPABLE)) :
    propose db uid a b now
      = .error (.badRequest "One or both events are no longer swappable") ∧
    applyOp db (Op.propose uid a b now) = db := by
  have herr : propose db uid a b now
      = .error (.badRequest "One or both events are no longer swappable") := by
    unfold propose
    simp only [h1, h2]
    rw [if_neg (not_not_intro hown)]
    have hcond : e1.status ≠ EventStatus.SWAPPABLE ∨
        e2.status ≠ EventStatus.SWAPPABLE := by
      by_cases hs1 : e1.status = EventStatus.SWAPPABLE
      · exact Or.inr fun hs2 => hns ⟨hs1, hs2⟩
      · exact Or.inl hs1
    rw [if_pos hcond]
  exact ⟨herr, applyOp_of_error herr⟩

/-- C6 witness: proposing a swap of an owned `BUSY` event for a foreign
`SWAPPABLE` event fails with the 400 and leaves the state unchanged. -/
theorem C6_propose_not_swappable_witness :
    propose (runOps [Op.create 1 "Busy slot" 0 60 (some .BUSY),
        Op.create 2 "Open slot" 60 120 (some .SWAPPABLE)]) 1 0 1 9
      = .error (.badRequest "One or both events are no longer swappable") ∧
    applyOp (runOps [Op.create 1 "Busy slot" 0 60 (some .BUSY),
        Op.create 2 "Open slot" 60 120 (some .SWAPPABLE)])
      (Op.propose 1 0 1 9)
      = runOps [Op.create 1 "Busy slot" 0 60 (some .BUSY),
        Op.create 2 "Open slot" 60 120 (some .SWAPPABLE)] :=
  C6_propose_not_swappable rfl rfl rfl (by decide)

/-- C7, counterexample: a respond call on an already-accepted request by
a caller who is not the recipient fails with the 403 Forbidden message,
not with the "no longer pending" (AlreadyResolved) failure the claim
asserts for any caller. -/
theorem C7_counterexample :
    respond dbResolved 3 2 true
      = .error (.forbidden "You are not authorized to respond to this request") ∧
    ApiError.forbidden "You are not authorized to respond to this request"
      ≠ ApiError.badRequest "Swap request is no longer pending" :=
  ⟨rfl, by decide⟩

/-- C7, amended: a respond call on a resolved (non-`PENDING`) request
fails — with the AlreadyResolved 400 when the caller is the recipient
and with 403 Forbidden otherwise — and in either case mutates nothing,
so a request leaves `PENDING` at most once. -/
theorem C7_resolved_request_immutable {db : DB} {uid rid : Nat} {acc : Bool}
    {r : SwapRequest}
    (hr : findRequest db rid = some r)
    (hres : r.status ≠ ReqStatus.PENDING) :
    (r.recipient_id = uid →
      respond db uid rid acc
        = .error (.badRequest "Swap request is no longer pending")) ∧
    (r.recipient_id ≠ uid →
      respond db uid rid acc
        = .error (.forbidden "You are not authorized to respond to this request")) ∧
    applyOp db (Op.respond uid rid acc) = db := by
  have hcase1 : r.recipient_id = uid →
      respond db uid rid acc
        = .error (.badRequest "Swap request is no longer pending") := by
    intro hrec
    unfold respond respondPlan
    simp only [hr]
    rw [if_neg (not_not_intro hrec), if_pos hres]
    rfl
  have hcase2 : r.recipient_id ≠ uid →
      respond db uid rid acc
        = .error (.forbidden "You are not authorized to respond to this request") := by
    intro hrec
    unfold respond respondPlan
    simp only [hr]
    rw [if_pos hrec]
    rfl
  refine ⟨hcase1, hcase2, ?_⟩
  by_cases hrec : r.recipient_id = uid
  · exact applyOp_of_error (hcase1 hrec)
  · exact applyOp_of_error (hcase2 hrec)

/-- C7 witness: responding again, as the recipient, to the concrete
accepted request yields the AlreadyResolved 400 and changes nothing. -/
theorem C7_resolved_request_immutable_witness :
    ((⟨2, 1, 0, 2, 1, ReqStatus.ACCEPTED, 5⟩ : SwapRequest).recipient_id = 2 →
      respond dbResolved 2 2 false
        = .error (.badRequest "Swap request is no longer pending")) ∧
    ((⟨2, 1, 0, 2, 1, ReqStatus.ACCEPTED, 5⟩ : SwapRequest).recipient_id ≠ 2 →
      respond dbResolved 2 2 false
        = .error (.forbidden "You are not authorized to respond to this request")) ∧
    applyOp dbResolved (Op.respond 2 2 false) = dbResolved :=
  @C7_resolved_request_immutable dbResolved 2 2 false
    ⟨2, 1, 0, 2, 1, ReqStatus.ACCEPTED, 5⟩ rfl (by decide)

/-- Successful propose, with the resulting state spelled out. -/
theorem propose_ok {db : DB} {u a b : Nat} {now : Int} {ea eb : Event}
    (hA : findEvent db a = some ea) (hB : findEvent db b = some eb)
    (hown : ea.user_id = u)
    (hsA : ea.status = EventStatus.SWAPPABLE)
    (hsB : eb.status = EventStatus.SWAPPABLE) :
    propose db u a b now = .ok
      { db with
        requests := db.requests ++
          [{ id := db.nextId, requester_id := u, requester_event_id := a,
             recipient_id := eb.user_id, recipient_event_id := b,
             status := .PENDING, createdAt := now }],
        events := setStatusById a .SWAP_PENDING
          (setStatusById b .SWAP_PENDING db.events),
        nextId := db.nextId + 1 } := by
  unfold propose
  simp only [hA, hB]
  rw [if_neg (not_not_intro hown),
    if_neg (show ¬(ea.status ≠ EventStatus.SWAPPABLE ∨
        eb.status ≠ EventStatus.SWAPPABLE) from by
      rintro (hc | hc)
      exacts [hc hsA, hc hsB])]

/-- Successful reject, with the resulting state spelled out. -/
theorem respond_reject_ok {db : DB} {uid rid : Nat} {r : SwapRequest}
    {e1 e2 : Event}
    (hr : findRequest db rid = some r)
    (hpend : r.status = ReqStatus.PENDING)
    (hrec : r.recipient_id = uid)
    (h1 : findEvent db r.requester_event_id = some e1)
    (h2 : findEvent db r.recipient_event_id = some e2) :
    respond db uid rid false = .ok
      { db with
        requests := db.requests.map fun q =>
          if q.id = r.id then { r with status := ReqStatus.REJECTED } else q,
        events := setStatusById r.recipient_event_id EventStatus.SWAPPABLE
          (setStatusById r.requester_event_id EventStatus.SWAPPABLE
            db.events) } := by
  have hplanF : respondPlan db uid rid false = .ok
      [WriteStep.putRequest { r with status := ReqStatus.REJECTED },
       WriteStep.setEventStatus r.requester_event_id EventStatus.SWAPPABLE,
       WriteStep.setEventStatus r.recipient_event_id EventStatus.SWAPPABLE] := by
    unfold respondPlan
    simp only [hr, h1, h2]
    rw [if_neg (not_not_intro hrec), if_neg (not_not_intro hpend)]
    rfl
  unfold respond
  rw [hplanF]
  rfl

/-- C8: round trip.  From two `SWAPPABLE` events with distinct owners,
propose followed by the recipient rejecting restores both full event
records (same owner, same status `SWAPPABLE`), and a second propose on
the same pair succeeds, creating a fresh `PENDING` request. -/
theorem C8_round_trip {db : DB} {u a b : Nat} {now now2 : Int}
    {ea eb : Event}
    (hA : findEvent db a = some ea) (hB : findEvent db b = some eb)
    (hsA : ea.status = EventStatus.SWAPPABLE)
    (hsB : eb.status = EventStatus.SWAPPABLE)
    (hown : ea.user_id = u) (hdist : eb.user_id ≠ u)
    (hfresh : ∀ q ∈ db.requests, q.id ≠ db.nextId) :
    ∃ db1 db2 db3,
      propose db u a b now = .ok db1 ∧
      respond db1 eb.user_id db.nextId false = .ok db2 ∧
      findEvent db2 a = some ea ∧
      findEvent db2 b = some eb ∧
      propose db2 u a b now2 = .ok db3 ∧
      ∃ rq ∈ db3.requests, rq.status = ReqStatus.PENDING ∧
        rq.requester_id = u ∧ rq.requester_event_id = a ∧
        rq.recipient_event_id = b := by
  obtain ⟨heamem, heaid⟩ := findP_eq_some hA
  obtain ⟨hebmem, hebid⟩ := findP_eq_some hB
  have hA' : findP (fun x : Event => x.id = a) db.events = some ea := hA
  have hB' : findP (fun x : Event => x.id = b) db.events = some eb := hB
  have hab : a ≠ b := by
    intro hc
    subst hc
    rw [hA] at hB
    injection hB with h
    exact hdist (h ▸ hown)
  obtain ⟨db1, hp1, hreq1, hev1, hnext1⟩ :
      ∃ d, propose db u a b now = .ok d ∧
        d.requests = db.requests ++
          [{ id := db.nextId, requester_id := u, requester_event_id := a,
             recipient_id := eb.user_id, recipient_event_id := b,
             status := .PENDING, createdAt := now }] ∧
        d.events = setStatusById a .SWAP_PENDING
          (setStatusById b .SWAP_PENDING db.events) ∧
        d.nextId = db.nextId + 1 :=
    ⟨_, propose_ok hA hB hown hsA hsB, rfl, rfl, rfl⟩
  have hr1 : findRequest db1 db.nextId = some
      { id := db.nextId, requester_id := u, requester_event_id := a,
        recipient_id := eb.user_id, recipient_event_id := b,
        status := .PENDING, createdAt := now } := by
    show findP _ db1.requests = _
    rw [hreq1, findP_append_none (findP_none_of_all fun x hx => hfresh x hx)]
    dsimp only [findP]
    rw [if_pos rfl]
  have hA1 : findEvent db1 a
      = some { ea with status := EventStatus.SWAP_PENDING } := by
    show findP _ db1.events = _
    rw [hev1, findP_setStatusById, findP_setStatusById, hA']
    dsimp only [Option.map]
    rw [if_neg (show ¬(ea.id = b) from fun hc => hab (heaid ▸ hc))]
    rw [if_pos heaid]
  have hB1 : findEvent db1 b
      = some { eb with status := EventStatus.SWAP_PENDING } := by
    show findP _ db1.events = _
    rw [hev1, findP_setStatusById, findP_setStatusById, hB']
    dsimp only [Option.map]
    rw [if_pos hebid]
    try dsimp only
    rw [if_neg (show ¬(eb.id = a) from fun hc => hab (hebid ▸ hc).symm)]
  obtain ⟨db2, hresp, hev2⟩ :
      ∃ d, respond db1 eb.user_id db.nextId false = .ok d ∧
        d.events = setStatusById b EventStatus.SWAPPABLE
          (setStatusById a EventStatus.SWAPPABLE db1.events) :=
    ⟨_, respond_reject_ok hr1 rfl rfl hA1 hB1, rfl⟩
  have hea_eta : ({ ea with status := EventStatus.SWAPPABLE } : Event)
      = ea := by rw [← hsA]
  have heb_eta : ({ eb with status := EventStatus.SWAPPABLE } : Event)
      = eb := by rw [← hsB]
  have hfa2 : findEvent db2 a = some ea := by
    show findP _ db2.events = _
    rw [hev2, hev1, findP_setStatusById, findP_setStatusById,
      findP_setStatusById, findP_setStatusById, hA']
    dsimp only [Option.map]
    rw [if_neg (show ¬(ea.id = b) from fun hc => hab (heaid ▸ hc))]
    rw [if_pos heaid]
    try dsimp only
    rw [if_pos heaid]
    try dsimp only
    rw [if_neg (show ¬(ea.id = b) from fun hc => hab (heaid ▸ hc))]
    rw [hea_eta]
  have hfb2 : findEvent db2 b = some eb := by
    show findP _ db2.events = _
    rw [hev2, hev1, findP_setStatusById, findP_setStatusById,
      findP_setStatusById, findP_setStatusById, hB']
    dsimp only [Option.map]
    rw [if_pos hebid]
    try dsimp only
    rw [if_neg (show ¬(eb.id = a) from fun hc => hab (hebid ▸ hc).symm)]
    try dsimp only
    rw [if_neg (show ¬(eb.id = a) from fun hc => hab (hebid ▸ hc).symm)]
    try dsimp only
    rw [if_pos hebid, heb_eta]
  refine ⟨db1, db2, _, hp1, hresp, hfa2, hfb2,
    propose_ok hfa2 hfb2 hown hsA hsB,
    ⟨db2.nextId, u, a, eb.user_id, b, .PENDING, now2⟩, ?_, rfl, rfl, rfl, rfl⟩
  exact List.mem_append_right _ (List.mem_singleton.mpr rfl)

/-- C8 witness: the concrete propose / reject / propose-again run on the
two-user pair succeeds end to end. -/
theorem C8_round_trip_witness :
    ∃ db1 db2 db3,
      propose dbPair 1 0 1 5 = .ok db1 ∧
      respond db1 2 2 false = .ok db2 ∧
      findEvent db2 0 = some ⟨0, 1, "Shift A", 0, 60, .SWAPPABLE⟩ ∧
      findEvent db2 1 = some ⟨1, 2, "Shift B", 60, 120, .SWAPPABLE⟩ ∧
      propose db2 1 0 1 9 = .ok db3 ∧
      ∃ rq ∈ db3.requests, rq.status = ReqStatus.PENDING ∧
        rq.requester_id = 1 ∧ rq.requester_event_id = 0 ∧
        rq.recipient_event_id = 1 :=
  @C8_round_trip dbPair 1 0 1 5 9
    ⟨0, 1, "Shift A", 0, 60, .SWAPPABLE⟩ ⟨1, 2, "Shift B", 60, 120, .SWAPPABLE⟩
    rfl rfl rfl rfl rfl (by decide) (by decide)

/-- C10: create persists any caller-supplied enum status — including
`SWAP_PENDING` — and defaults to `BUSY` exactly when no (truthy) status
is supplied; update moves any non-locked event to `SWAP_PENDING` on
request.  No swap request is consulted or created by either route. -/
theorem C10_status_passthrough {db : DB} {uid : Nat} {t : String}
    {s e : Int} (ht : t ≠ "") (hse : s < e) :
    (∀ st : EventStatus, createEvent db uid t s e (some st)
      = .ok { db with
          events := db.events ++
            [{ id := db.nextId, user_id := uid, title := t, start_time := s,
               end_time := e, status := st }],
          nextId := db.nextId + 1 }) ∧
    (createEvent db uid t s e none
      = .ok { db with
          events := db.events ++
            [{ id := db.nextId, user_id := uid, title := t, start_time := s,
               end_time := e, status := EventStatus.BUSY }],
          nextId := db.nextId + 1 }) ∧
    (∀ eid ev, findEventOwned db uid eid = some ev →
      ev.status ≠ EventStatus.SWAP_PENDING →
      updateEvent db uid eid none none none (some EventStatus.SWAP_PENDING)
        = .ok { db with
            events := putEventDoc
              { ev with status := EventStatus.SWAP_PENDING } db.events }) := by
  have hle : ¬(e ≤ s) := not_le.mpr hse
  refine ⟨?_, ?_, ?_⟩
  · intro st
    unfold createEvent
    rw [if_neg ht, if_neg hle]
    rfl
  · unfold createEvent
    rw [if_neg ht, if_neg hle]
    rfl
  · intro eid ev hfind hsp
    unfold updateEvent
    rw [hfind]
    dsimp only
    rw [if_neg hsp]
    rfl

/-- C10 witness: creating directly with `SWAP_PENDING` succeeds on the
empty store, and updating a fresh `BUSY` event to `SWAP_PENDING`
succeeds, in both cases with no swap request anywhere. -/
theorem C10_status_passthrough_witness :
    (∀ st : EventStatus, createEvent initDB 1 "Ghost shift" 0 60 (some st)
      = .ok { initDB with
          events := [{ id := 0, user_id := 1, title := "Ghost shift",
                       start_time := 0, end_time := 60, status := st }],
          nextId := 1 }) ∧
    (createEvent initDB 1 "Ghost shift" 0 60 none
      = .ok { initDB with
          events := [{ id := 0, user_id := 1, title := "Ghost shift",
                       start_time := 0, end_time := 60,
                       status := EventStatus.BUSY }],
          nextId := 1 }) ∧
    (∀ eid ev, findEventOwned initDB 1 eid = some ev →
      ev.status ≠ EventStatus.SWAP_PENDING →
      updateEvent initDB 1 eid none none none (some EventStatus.SWAP_PENDING)
        = .ok { initDB with
            events := putEventDoc
              { ev with status := EventStatus.SWAP_PENDING } initDB.events }) :=
  C10_status_passthrough (by decide) (by decide)

/-- C5, amended: the propose route has no self-swap guard.  Whenever
both events exist, are `SWAPPABLE`, and the requester owns the first,
propose succeeds even when the requester also owns the second: it
creates a `PENDING` request whose requester and recipient are the same
user and locks both events. -/
theorem C5_no_self_swap_guard {db : DB} {u a b : Nat} {now : Int}
    {ea eb : Event}
    (hA : findEvent db a = some ea) (hB : findEvent db b = some eb)
    (hownA : ea.user_id = u) (hownB : eb.user_id = u)
    (hsA : ea.status = EventStatus.SWAPPABLE)
    (hsB : eb.status = EventStatus.SWAPPABLE) :
    ∃ db2, propose db u a b now = .ok db2 ∧
      ∃ rq ∈ db2.requests, rq.requester_id = u ∧ rq.recipient_id = u ∧
        rq.status = ReqStatus.PENDING ∧ rq.requester_event_id = a ∧
        rq.recipient_event_id = b :=
  ⟨_, propose_ok hA hB hownA hsA hsB,
    ⟨db.nextId, u, a, eb.user_id, b, .PENDING, now⟩,
    List.mem_append_right _ (List.mem_singleton.mpr rfl),
    rfl, hownB, rfl, rfl, rfl⟩

/-- C5 witness: on the concrete store where user 1 owns both swappable
events, propose creates a self-addressed `PENDING` request. -/
theorem C5_no_self_swap_guard_witness :
    ∃ db2, propose dbSelf 1 0 1 7 = .ok db2 ∧
      ∃ rq ∈ db2.requests, rq.requester_id = 1 ∧ rq.recipient_id = 1 ∧
        rq.status = ReqStatus.PENDING ∧ rq.requester_event_id = 0 ∧
        rq.recipient_event_id = 1 :=
  @C5_no_self_swap_guard dbSelf 1 0 1 7
    ⟨0, 1, "Early shift", 0, 60, .SWAPPABLE⟩
    ⟨1, 1, "Late shift", 60, 120, .SWAPPABLE⟩
    rfl rfl rfl rfl rfl rfl

end SlotSwapper
